import Mathlib

/-!
Verification development for the module-federation isolation plugin
(build-time manifest compaction in ModuleFederationIsolationPlugin.ts and
the runtime isolation engine in ModuleFederationIsolationRuntimePlugin.ts).

JavaScript records are modelled as association lists keyed by strings
(JS object keys are strings; record assignment replaces in place or
appends, deletion removes the binding).  Webpack module ids are modelled
as strings.  The host bundler's own synchronous require machinery is not
part of the repository and is modelled from the spec where noted.
-/

namespace MFI

/-- Lookup in an association list (JS record member read). -/
def lookupA {κ α : Type} [DecidableEq κ] (k : κ) : List (κ × α) → Option α
  | [] => none
  | (k', v) :: t => if k' = k then some v else lookupA k t

/-- Record assignment: replace the binding in place if the key is present,
otherwise append it (JS object key insertion order). -/
def insertA {κ α : Type} [DecidableEq κ] (k : κ) (v : α) : List (κ × α) → List (κ × α)
  | [] => [(k, v)]
  | (k', v') :: t => if k' = k then (k, v) :: t else (k', v') :: insertA k v t

/-- Record deletion: remove the binding for the key.  JS records never
hold a key twice, so removing every binding with the key is the same
operation on all states reachable from a JS record. -/
def eraseA {κ α : Type} [DecidableEq κ] (k : κ) : List (κ × α) → List (κ × α)
  | [] => []
  | (k', v') :: t => if k' = k then eraseA k t else (k', v') :: eraseA k t

/-! ### Character-list utilities (JS string primitives) -/
/-- JS String.prototype.indexOf for a single character, on the char list. -/
def firstIdxOf (c : Char) : List Char → Option Nat
  | [] => none
  | x :: t => if x = c then some 0 else (firstIdxOf c t).map (· + 1)

/-- JS String.prototype.lastIndexOf for a single character. -/
def lastIdxOf (c : Char) (l : List Char) : Option Nat :=
  match l with
  | [] => none
  | x :: t =>
    match lastIdxOf c t with
    | some i => some (i + 1)
    | none => if x = c then some 0 else none

/-- Leading run kept by JS split on a character class: everything up to the
first occurrence of any character in the class. -/
def takeUntilAny (cs : List Char) : List Char → List Char
  | [] => []
  | x :: t => if cs.contains x then [] else x :: takeUntilAny cs t

/-- Whether the second list occurs at the head of the first. -/
def headMatches : List Char → List Char → Bool
  | _, [] => true
  | [], _ :: _ => false
  | a :: as, b :: bs => a = b && headMatches as bs

/-- JS String.prototype.indexOf for a substring. -/
def subIdxOf (hay pat : List Char) : Option Nat :=
  if headMatches hay pat then some 0
  else
    match hay with
    | [] => none
    | _ :: t => (subIdxOf t pat).map (· + 1)

/-- Value of a decimal digit character, none for other characters. -/
def digitVal (c : Char) : Option Nat :=
  if '0' ≤ c ∧ c ≤ '9' then some (c.toNat - 48) else none

/-- Parse a run of leading decimal digits the way JS parseInt does: the
value of the longest digit run at the head, none when the first character
is not a digit (parseInt then yields NaN). -/
def parseIntCL (l : List Char) : Option Nat :=
  match l with
  | [] => none
  | c :: _ =>
    match digitVal c with
    | none => none
    | some _ => some (parseIntAux l 0)
where
  parseIntAux : List Char → Nat → Nat
    | [], acc => acc
    | c :: t, acc =>
      match digitVal c with
      | none => acc
      | some d => parseIntAux t (acc * 10 + d)

/-- Decimal digit character for a value below ten. -/
def digitChar10 (n : Nat) : Char :=
  match n with
  | 0 => '0' | 1 => '1' | 2 => '2' | 3 => '3' | 4 => '4'
  | 5 => '5' | 6 => '6' | 7 => '7' | 8 => '8' | _ => '9'

/-- Decimal digits of a number, fuel-driven so it reduces in the kernel. -/
def natDigitsAux : Nat → Nat → List Char
  | 0, _ => []
  | fuel + 1, n =>
    if n < 10 then [digitChar10 n]
    else natDigitsAux fuel (n / 10) ++ [digitChar10 (n % 10)]

/-- Decimal rendering of a number (JS template-literal number coercion). -/
def natToStr (n : Nat) : String :=
  String.mk (natDigitsAux (n + 1) n)

/-! ### Semantic-version predicate

Modelled from the spec: range satisfaction is delegated to an external
semantic-versioning library (semver satisfies), outside the repository.
The engine definitions below are parameterized over an arbitrary
predicate; this executable instance covers exact, caret and tilde ranges
over three-component versions, enough to evaluate concrete scenarios. -/
/-- Split a char list on a separator character. -/
def splitOnCL (c : Char) : List Char → List (List Char)
  | [] => [[]]
  | x :: t =>
    let r := splitOnCL c t
    if x = c then [] :: r
    else
      match r with
      | h :: t' => (x :: h) :: t'
      | [] => [[x]]

/-- Numeric value of a nonempty all-digit char list. -/
def natOfDigits : List Char → Option Nat
  | [] => none
  | l => natOfDigitsAux l 0
where
  natOfDigitsAux : List Char → Nat → Option Nat
    | [], acc => some acc
    | c :: t, acc =>
      match digitVal c with
      | none => none
      | some d => natOfDigitsAux t (acc * 10 + d)

/-- Parse a version of the shape major.minor.patch. -/
def parseVer (s : List Char) : Option (Nat × Nat × Nat) :=
  match (splitOnCL '.' s).map natOfDigits with
  | [some a, some b, some c] => some (a, b, c)
  | _ => none

/-- Lexicographic comparison of version triples. -/
def verLe (a b : Nat × Nat × Nat) : Bool :=
  a.1 < b.1 || (a.1 = b.1 && (a.2.1 < b.2.1 || (a.2.1 = b.2.1 && a.2.2 ≤ b.2.2)))

/-- Modelled from the spec: the external semantic-versioning satisfaction
predicate the engine delegates to (semver satisfies); a minimal executable
instance for exact, caret and tilde ranges, used to evaluate concrete
scenarios, while every engine definition stays parameterized over an
arbitrary predicate. -/
def miniSat (version range : String) : Bool :=
  match parseVer version.data with
  | none => false
  | some v =>
    match range.data with
    | '^' :: rest =>
      match parseVer rest with
      | some r => v.1 = r.1 && verLe r v
      | none => false
    | '~' :: rest =>
      match parseVer rest with
      | some r => v.1 = r.1 && v.2.1 = r.2.1 && verLe r v
      | none => false
    | rest =>
      match parseVer rest with
      | some r => v = r
      | none => false

/-! ### Data model of the runtime engine

Translated from ModuleFederationIsolationRuntimePlugin.ts.  Webpack module
ids are strings (JS record keys are strings; numeric ids coerce).  A
registry handle (the WebpackRequire object) is a numeric index into the
world's registry table, standing for the object reference. -/
/-- Webpack module identifier. -/
abbrev ModuleId := String

/-- Registry handle: reference to one bundle's WebpackRequire. -/
abbrev RegId := Nat

/-- The runtime state strategies (RuntimeStateStrategy). -/
inductive Strategy where
  | useOrigin
  | isolate
  | reuseOwn
deriving DecidableEq, Repr

/-- Reverse-index entry (midToUid values): package name, exact version and
package-relative module path of a module id. -/
structure Uid where
  pkgName : String
  pkgVersion : String
  modulePath : String
deriving DecidableEq, Repr

/-- Redirection-table entry (manifest.red values): target module id plus
the providing bundle's registry handle when known. -/
structure RedEntry where
  mid : ModuleId
  webpackRequire : Option RegId
deriving DecidableEq, Repr

/-- Package-version payload: the pair of collected semver ranges and the
module-path-to-id record (the size-optimized tuple encoding). -/
abbrev PkgVersionData := List String × List (String × ModuleId)

instance : DecidableEq (List (String × PkgVersionData)) :=
  inferInstance

instance : DecidableEq (List (String × List (String × PkgVersionData))) :=
  inferInstance

/-- The runtime manifest (RuntimeManifest), with the build-time fields
(pre, pkg, red) and the derived indexes built at first use (midToUid,
pkgVersions, pkgMatch).  pkg maps package name to version to the pair of
collected semver ranges and the module-path-to-id record, mirroring the
size-optimized tuple encoding. -/
structure RtManifest where
  pre : List String
  pkg : List (String × List (String × PkgVersionData))
  red : List (ModuleId × RedEntry)
  midToUid : List (ModuleId × Uid)
  pkgVersions : List (String × List (String × List String))
  pkgMatch : List (String × List (String × Option String))
  hostName : String
  initiated : Bool
deriving DecidableEq, Repr

/-- A cache record (WebpackModule).  The exports object is identified by
the cache key it was instantiated under, standing for its reference. -/
structure ModuleRec where
  exports : ModuleId
deriving DecidableEq, Repr

/-- A module factory.  An original factory is its module code, abstracted
as the ordered list of module ids it requires; patchModuleFactory wraps a
factory so its require argument becomes a translation require with the
recorded parameters. -/
inductive Factory where
  | orig (deps : List ModuleId)
  | patched (inner : Factory) (own : RegId) (origin : RegId) (ns : String) (strat : Strategy)
deriving DecidableEq, Repr

/-- One bundle's module registry: the module cache (webpackRequire.c), the
factory table (webpackRequire.m) and the runtime manifest
(webpackRequire.federation.isolation). -/
structure Registry where
  c : List (ModuleId × ModuleRec)
  m : List (ModuleId × Factory)
  isolation : RtManifest
deriving DecidableEq, Repr

/-- The world: all registries, plus observation logs (factory invocations
performed by the host require, and hits on the mid-instantiation synthetic
cache slot).  The logs are pure instrumentation; no definition reads
them. -/
structure World where
  regs : List (RegId × Registry)
  instLog : List (RegId × ModuleId)
  synthHits : List (RegId × ModuleId)
deriving DecidableEq, Repr

/-- Empty manifest. -/
def emptyManifest : RtManifest :=
  ⟨[], [], [], [], [], [], "", false⟩

/-- Empty registry, the default for a dangling handle (unreachable from
faithful scenarios, where every handle is a live object reference). -/
def emptyRegistry : Registry :=
  ⟨[], [], emptyManifest⟩

/-- Dereference a registry handle. -/
def getRegD (w : World) (r : RegId) : Registry :=
  (lookupA r w.regs).getD emptyRegistry

/-- Update the registry behind a handle. -/
def setRegW (r : RegId) (R : Registry) (w : World) : World :=
  { w with regs := insertA r R w.regs }

/-- The redirection step of the translation require (lines 225-230): an
entry for the requested id with a truthy target id and a present registry
handle redirects the request; any other entry is ignored. -/
def applyRedirection (origin0 : RegId) (red : List (ModuleId × RedEntry))
    (mid0 : ModuleId) : ModuleId × RegId :=
  match lookupA mid0 red with
  | some e =>
    match e.webpackRequire with
    | some r => if e.mid ≠ "" then (e.mid, r) else (mid0, origin0)
    | none => (mid0, origin0)
  | none => (mid0, origin0)

/-- The package-identity key pkgName~pkgVersion. -/
def pkgUniversalId (u : Uid) : String :=
  u.pkgName ++ "~" ++ u.pkgVersion

/-- Whether the own module for a version and module path is already
instantiated: resolve the module id through pkg and check the own cache
(ownRequire.c[possibleOwnModuleId] with an undefined id reads as absent).
The two pkg lookups throw in JS when missing (error ()). -/
def ownPathInstantiated (ownMan : RtManifest) (ownCache : List (ModuleId × ModuleRec))
    (pkgName ver modulePath : String) : Except Unit Bool :=
  match lookupA pkgName ownMan.pkg with
  | none => .error ()
  | some vers =>
    match lookupA ver vers with
    | none => .error ()
    | some pd =>
      match lookupA modulePath pd.2 with
      | none => .ok false
      | some mid => .ok (lookupA mid ownCache).isSome

/-- Second matching attempt of the fresh search (lines 268-287): the first
own version whose recorded ranges are all satisfied by the origin version,
claimed only when not yet instantiated. -/
def computeOwnVersionSnd (sat : String → String → Bool)
    (ownMan : RtManifest) (ownCache : List (ModuleId × ModuleRec)) (u : Uid)
    (ownPackageVersions? : Option (List (String × List String))) :
    Except Unit (Option String) :=
  match ownPackageVersions? with
  | none => .ok none
  | some l =>
    match l.find? (fun p => p.2.all (fun range => sat u.pkgVersion range)) with
    | none => .ok none
    | some pB =>
      match ownPathInstantiated ownMan ownCache u.pkgName pB.1 u.modulePath with
      | .error e => .error e
      | .ok true => .ok none
      | .ok false => .ok (some pB.1)

/-- The fresh ReuseOwn version search (lines 242-287).  First the code
looks for the first own version satisfying every range recorded against
the origin version, and takes it only when its module for the path is
already instantiated; otherwise it looks for the first own version whose
own recorded ranges are all satisfied by the origin version, and claims
it only when its module is not yet instantiated.  A missing origin
pkgVersions entry throws in JS (undefined.find). -/
def computeOwnVersionFresh (sat : String → String → Bool)
    (ownMan : RtManifest) (ownCache : List (ModuleId × ModuleRec))
    (originMan : RtManifest) (u : Uid) : Except Unit (Option String) :=
  match lookupA u.pkgName originMan.pkgVersions with
  | none => .error ()
  | some originPackageVersions =>
    let ownPackageVersions? : Option (List (String × List String)) :=
      lookupA u.pkgName ownMan.pkgVersions
    let originPackageVersion? : Option (String × List String) :=
      originPackageVersions.find? (fun p => p.1 == u.pkgVersion)
    let candA? : Option (String × List String) :=
      match ownPackageVersions? with
      | none => none
      | some l =>
        l.find? (fun p =>
          match originPackageVersion? with
          | some ov => ov.2.all (fun range => sat p.1 range)
          | none => false)
    match candA? with
    | some pA =>
      match ownPathInstantiated ownMan ownCache u.pkgName pA.1 u.modulePath with
      | .error e => .error e
      | .ok true => .ok (some pA.1)
      | .ok false => computeOwnVersionSnd sat ownMan ownCache u ownPackageVersions?
    | none => computeOwnVersionSnd sat ownMan ownCache u ownPackageVersions?

/-- The memoized ReuseOwn version match (lines 240-293): a cached value
for the (origin host name, package identity) pair, including a cached
explicit null, is returned without searching; otherwise the fresh search
runs and its outcome is written into pkgMatch.  The boolean reports
whether the fresh search ran. -/
def resolveOwnVersion (sat : String → String → Bool)
    (ownMan : RtManifest) (ownCache : List (ModuleId × ModuleRec))
    (originMan : RtManifest) (u : Uid) :
    Except Unit (Option String × RtManifest × Bool) :=
  let hostKey := originMan.hostName
  let uid := pkgUniversalId u
  match (lookupA hostKey ownMan.pkgMatch).bind (fun inner => lookupA uid inner) with
  | some cached => .ok (cached, ownMan, false)
  | none =>
    match computeOwnVersionFresh sat ownMan ownCache originMan u with
    | .error e => .error e
    | .ok res =>
      let inner := (lookupA hostKey ownMan.pkgMatch).getD []
      let ownMan' :=
        { ownMan with pkgMatch := insertA hostKey (insertA uid res inner) ownMan.pkgMatch }
      .ok (res, ownMan', true)

/-- The pre-instantiation phase of the translation require (lines
222-305): redirection, then under ReuseOwn the memoized version match and
the own-module-id lookup (pkg[name][version][1][path] ?? null).  Returns
the effective origin module id, the effective origin registry, the own
module id when one was matched, and the world updated with the pkgMatch
write. -/
def translationPrep (sat : String → String → Bool) (own : RegId) (origin0 : RegId)
    (strat : Strategy) (mid0 : ModuleId) (w : World) :
    Except Unit (ModuleId × RegId × Option ModuleId × World) :=
  let OR0 := getRegD w origin0
  let (mid, origin) := applyRedirection origin0 OR0.isolation.red mid0
  match strat with
  | .reuseOwn =>
    let OR := getRegD w origin
    match lookupA mid OR.isolation.midToUid with
    | none => .ok (mid, origin, none, w)
    | some u =>
      let OW := getRegD w own
      match resolveOwnVersion sat OW.isolation OW.c OR.isolation u with
      | .error e => .error e
      | .ok (ver?, ownMan', _) =>
        let w' := setRegW own { OW with isolation := ownMan' } w
        match ver? with
        | none => .ok (mid, origin, none, w')
        | some ver =>
          match lookupA u.pkgName ownMan'.pkg with
          | none => .error ()
          | some vers =>
            match lookupA ver vers with
            | none => .error ()
            | some pd => .ok (mid, origin, lookupA u.modulePath pd.2, w')
  | _ => .ok (mid, origin, none, w)

/-! ### The instantiation machinery

webpackRequire below is modelled from the spec: the host bundler's own
synchronous module instantiation (spec section 6, host registry
interface) is outside the repository.  It returns a cached module's
exports on a hit; on a miss it creates the cache record before invoking
the factory, which is what makes a mid-instantiation re-entrant require
observe the partially-constructed exports instead of recursing.
translationRequire is translated from createTranslationRequire (lines
213-334).  All functions are fuel-indexed so they are total; noFuel marks
fuel exhaustion and jsError a thrown JS exception. -/
deriving instance DecidableEq for Except

/-- Result of a run: normal value plus final world, a thrown JS error, or
fuel exhaustion. -/
inductive RunRes (α : Type) where
  | ok (a : α) (w : World)
  | jsError
  | noFuel
deriving DecidableEq, Repr

mutual

/-- Modelled from the spec: the host bundler's synchronous require.  A
cache hit returns the recorded exports; a miss creates the cache record
(under the requested key, which also names its exports object), logs the
factory invocation, runs the factory, and returns the exports. -/
def webpackRequire (sat : String → String → Bool) (fuel : Nat) (reg : RegId)
    (mid : ModuleId) (w : World) : RunRes ModuleId :=
  match fuel with
  | 0 => .noFuel
  | fuel + 1 =>
    let R := getRegD w reg
    match lookupA mid R.c with
    | some rec => .ok rec.exports w
    | none =>
      match lookupA mid R.m with
      | none => .jsError
      | some f =>
        let w := setRegW reg { R with c := insertA mid ⟨mid⟩ R.c } w
        let w := { w with instLog := w.instLog ++ [(reg, mid)] }
        match runFactory sat fuel f reg w with
        | .ok _ w' => .ok mid w'
        | .jsError => .jsError
        | .noFuel => .noFuel
termination_by structural fuel

/-- Run a factory.  An original factory requires each of its dependencies
through the plain host require of its registry; a patched factory routes
the inner original factory's requires through the translation require it
was created with (patchModuleFactory, lines 209-211); a doubly patched
factory behaves as the inner patched one, whose captured require wins. -/
def runFactory (sat : String → String → Bool) (fuel : Nat) (f : Factory)
    (reg : RegId) (w : World) : RunRes Unit :=
  match fuel with
  | 0 => .noFuel
  | fuel + 1 =>
    match f with
    | .orig deps => depsRequire sat fuel deps reg w
    | .patched (.orig deps) own origin ns strat =>
      depsTranslate sat fuel deps own origin ns strat w
    | .patched (.patched g o2 i2 n2 s2) _ _ _ _ =>
      runFactory sat fuel (.patched g o2 i2 n2 s2) reg w
termination_by structural fuel

/-- Require a list of dependencies in order through the host require. -/
def depsRequire (sat : String → String → Bool) (fuel : Nat)
    (deps : List ModuleId) (reg : RegId) (w : World) : RunRes Unit :=
  match fuel with
  | 0 => .noFuel
  | fuel + 1 =>
    match deps with
    | [] => .ok () w
    | d :: ds =>
      match webpackRequire sat fuel reg d w with
      | .ok _ w' => depsRequire sat fuel ds reg w'
      | .jsError => .jsError
      | .noFuel => .noFuel
termination_by structural fuel

/-- Require a list of dependencies in order through a translation
require. -/
def depsTranslate (sat : String → String → Bool) (fuel : Nat)
    (deps : List ModuleId) (own : RegId) (origin : RegId) (ns : String)
    (strat : Strategy) (w : World) : RunRes Unit :=
  match fuel with
  | 0 => .noFuel
  | fuel + 1 =>
    match deps with
    | [] => .ok () w
    | d :: ds =>
      match translationRequire sat fuel own origin ns strat d w with
      | .ok _ w' => depsTranslate sat fuel ds own origin ns strat w'
      | .jsError => .jsError
      | .noFuel => .noFuel
termination_by structural fuel

/-- The translation require (createTranslationRequire, lines 213-334).
After the pre-instantiation phase (redirection and ReuseOwn matching),
the three cache layers are checked in order: the own registry's cache
under the target id, then the origin registry's synthetic slot (a hit
there is a mid-instantiation re-entrant require and is logged); on a full
miss the original factory is patched and installed under the synthetic
namespaced id, instantiated through the origin registry's host require,
and the resulting cache entry is moved to the own registry under the
target id, deleting the synthetic factory and cache entries from the
origin registry whenever the permanent entry lives in a different
registry or under a different id. -/
def translationRequire (sat : String → String → Bool) (fuel : Nat)
    (own : RegId) (origin0 : RegId) (ns : String) (strat : Strategy)
    (mid0 : ModuleId) (w : World) : RunRes ModuleId :=
  match fuel with
  | 0 => .noFuel
  | fuel + 1 =>
    match translationPrep sat own origin0 strat mid0 w with
    | .error _ => .jsError
    | .ok (mid, origin, ownMid?, w) =>
      let isoId : ModuleId := ns ++ "/" ++ mid
      let ownId : ModuleId := ownMid?.getD isoId
      match lookupA ownId (getRegD w own).c with
      | some rec => .ok rec.exports w
      | none =>
        match lookupA isoId (getRegD w origin).c with
        | some rec =>
          .ok rec.exports { w with synthHits := w.synthHits ++ [(origin, isoId)] }
        | none =>
          match lookupA mid (getRegD w origin).m with
          | none => .jsError
          | some f =>
            let OR := getRegD w origin
            let w := setRegW origin
              { OR with m := insertA isoId (.patched f own origin ns strat) OR.m } w
            match webpackRequire sat fuel origin isoId w with
            | .jsError => .jsError
            | .noFuel => .noFuel
            | .ok _ w1 =>
              match lookupA isoId (getRegD w1 origin).c with
              | none => .jsError
              | some rec =>
                let OW1 := getRegD w1 own
                let w2 := setRegW own { OW1 with c := insertA ownId rec OW1.c } w1
                let w3 :=
                  if own ≠ origin ∨ ownId ≠ isoId then
                    let OR2 := getRegD w2 origin
                    setRegW origin
                      { OR2 with c := eraseA isoId OR2.c, m := eraseA isoId OR2.m } w2
                  else w2
                match lookupA ownId (getRegD w3 own).c with
                | none => .jsError
                | some rec2 => .ok rec2.exports w3
termination_by structural fuel

end

/-- World of the cyclic scenario: an empty consumer registry 0 and an
origin registry 1 whose module x requires y and whose module y requires
x. -/
def cycleWorld (x y : ModuleId) : World :=
  { regs := [(0, { c := [], m := [], isolation := { emptyManifest with hostName := "own" } }),
      (1, { c := [], m := [(x, .orig [y]), (y, .orig [x])], isolation := { emptyManifest with hostName := "origin" } })],
    instLog := [], synthHits := [] }

/-- World for the promotion witness: one origin module with no
dependencies, distinct own and origin registries. -/
def promoWorld : World :=
  { regs := [(0, { c := [], m := [], isolation := { emptyManifest with hostName := "own" } }),
      (1, { c := [], m := [("X", .orig [])],
            isolation := { emptyManifest with hostName := "origin" } })],
    instLog := [], synthHits := [] }

/-- Final world of the promotion witness run. -/
def promoFinal : World :=
  match translationRequire miniSat 5 0 1 "N" .isolate "X" promoWorld with
  | .ok _ w => w
  | _ => promoWorld

/-- First local version whose version satisfies every range recorded
against the origin version: the direction the code checks in its first
matching attempt. -/
def findOwnSatisfyingOriginRanges (sat : String → String → Bool)
    (ownVers : List (String × List String)) (originRanges : List String) :
    Option (String × List String) :=
  ownVers.find? (fun p => originRanges.all (fun r => sat p.1 r))

/-- First local version all of whose recorded ranges are satisfied by the
origin version: the direction the code checks in its second matching
attempt. -/
def findOwnRangesSatisfiedByOrigin (sat : String → String → Bool)
    (ownVers : List (String × List String)) (originVersion : String) :
    Option (String × List String) :=
  ownVers.find? (fun p => p.2.all (fun r => sat originVersion r))

/-- The second matching attempt, in the vocabulary of the direction
functions: the first local version whose recorded ranges the origin
version satisfies, claimed only when not yet instantiated. -/
def reuseOwnRefSnd (sat : String → String → Bool) (ownMan : RtManifest)
    (ownCache : List (ModuleId × ModuleRec)) (u : Uid)
    (ownVersList : List (String × List String)) : Except Unit (Option String) :=
  match findOwnRangesSatisfiedByOrigin sat ownVersList u.pkgVersion with
  | none => .ok none
  | some pB =>
    match ownPathInstantiated ownMan ownCache u.pkgName pB.1 u.modulePath with
    | .error e => .error e
    | .ok true => .ok none
    | .ok false => .ok (some pB.1)

/-- The matching order actually implemented, stated with the direction
functions: first the first local version satisfying the origin's recorded
ranges, used only if its module is already instantiated; in every other
case the second attempt in the opposite direction, claiming an
uninstantiated local version. -/
def reuseOwnMatchRef (sat : String → String → Bool) (ownMan : RtManifest)
    (ownCache : List (ModuleId × ModuleRec)) (originMan : RtManifest) (u : Uid) :
    Except Unit (Option String) :=
  match lookupA u.pkgName originMan.pkgVersions with
  | none => .error ()
  | some originVers =>
    let ownVersList := (lookupA u.pkgName ownMan.pkgVersions).getD []
    match originVers.find? (fun p => p.1 == u.pkgVersion) with
    | none => reuseOwnRefSnd sat ownMan ownCache u ownVersList
    | some ov =>
      match findOwnSatisfyingOriginRanges sat ownVersList ov.2 with
      | none => reuseOwnRefSnd sat ownMan ownCache u ownVersList
      | some pA =>
        match ownPathInstantiated ownMan ownCache u.pkgName pA.1 u.modulePath with
        | .error e => .error e
        | .ok true => .ok (some pA.1)
        | .ok false => reuseOwnRefSnd sat ownMan ownCache u ownVersList

/-- The matching order the claim describes: first an already-instantiated
local version whose declared ranges are satisfied by the origin version,
otherwise a not-yet-instantiated local version satisfying the origin's
recorded ranges. -/
def reuseOwnMatchClaimed (sat : String → String → Bool) (ownMan : RtManifest)
    (ownCache : List (ModuleId × ModuleRec)) (originMan : RtManifest) (u : Uid) :
    Option String :=
  let ownVers := (lookupA u.pkgName ownMan.pkgVersions).getD []
  let originRanges :=
    ((((lookupA u.pkgName originMan.pkgVersions).getD []).find?
        (fun p => p.1 == u.pkgVersion)).map Prod.snd).getD []
  let inst := fun v =>
    match ownPathInstantiated ownMan ownCache u.pkgName v u.modulePath with
    | .ok b => b
    | .error _ => false
  match ownVers.find? (fun p => inst p.1 && p.2.all (fun r => sat u.pkgVersion r)) with
  | some p => some p.1
  | none =>
    (ownVers.find? (fun p => !(inst p.1) && originRanges.all (fun r => sat p.1 r))).map Prod.fst

/-- Own manifest for the ReuseOwn direction scenario: one local version
1.5.0 of package lib, declared under range ^1.0.0, its module
instantiated. -/
def c3OwnMan : RtManifest :=
  { emptyManifest with
    pkg := [("lib", [("1.5.0", (["^1.0.0"], [("index.js", "m15")]))])],
    pkgVersions := [("lib", [("1.5.0", ["^1.0.0"])])],
    hostName := "own" }

/-- Origin manifest for the scenario: lib 1.2.0 recorded under range
~1.2.0. -/
def c3OriginMan : RtManifest :=
  { emptyManifest with
    pkg := [("lib", [("1.2.0", (["~1.2.0"], [("index.js", "xm")]))])],
    pkgVersions := [("lib", [("1.2.0", ["~1.2.0"])])],
    hostName := "O" }

/-- Own cache for the scenario: the local lib module is instantiated. -/
def c3Cache : List (ModuleId × ModuleRec) := [("m15", ⟨"m15"⟩)]

/-- Reverse-index identity of the requested origin module. -/
def c3U : Uid := ⟨"lib", "1.2.0", "index.js"⟩

/-- Own manifest after the first ReuseOwn resolution of the scenario pair:
the explicit no-match outcome is cached in pkgMatch. -/
def c4Man : RtManifest :=
  match resolveOwnVersion miniSat c3OwnMan c3Cache c3OriginMan c3U with
  | .ok (_, m, _) => m
  | _ => c3OwnMan

/-- Redirection table for the redirection witness: a full entry, an entry
missing the registry handle, and an entry with a falsy target id. -/
def c10Red : List (ModuleId × RedEntry) :=
  [("a", ⟨"b", some 7⟩), ("c", ⟨"d", none⟩), ("e", ⟨"", some 3⟩)]

/-! ### Manifest expansion (runtime) and compaction (build time)

Expansion is translated from initiateRuntimeManifestIfPresent
(ModuleFederationIsolationRuntimePlugin.ts lines 164-207); compaction from
getSizeOptimizedManifest (ModuleFederationIsolationPlugin.ts lines
112-168). -/
/-- Re-expand one compacted module path (lines 184-197): strip the query
suffix, and when a slash is present replace the numeric prefix reference
with the prefix from pre (a non-numeric or out-of-range reference reads
as the JS undefined and renders as the string undefined). -/
def expandPathRt (pre : List String) (p : String) : String :=
  let noq :=
    match firstIdxOf '?' p.data with
    | some i => p.data.take i
    | none => p.data
  match firstIdxOf '/' noq with
  | none => p
  | some i =>
    let pref := p.data.take i
    let suffix := p.data.drop (i + 1)
    (match parseIntCL pref with
     | some n => pre.getD n "undefined"
     | none => "undefined") ++ "/" ++ String.mk suffix

/-- The in-place rewrite of one version's module-path record: iterate the
snapshot of entries, and for every path holding a slash delete the old
binding and append the expanded one (lines 184-197). -/
def expandPkgPaths (pre : List String) (paths : List (String × ModuleId)) :
    List (String × ModuleId) :=
  paths.foldl
    (fun acc pm =>
      let noq :=
        match firstIdxOf '?' pm.1.data with
        | some i => pm.1.data.take i
        | none => pm.1.data
      match firstIdxOf '/' noq with
      | none => acc
      | some _ => insertA (expandPathRt pre pm.1) pm.2 (eraseA pm.1 acc))
    paths

/-- The expansion pass over an uninitiated manifest (lines 169-206): set
the initiated flag, reset the derived indexes, derive pkgVersions from
pkg, expand every module path in place and populate the reverse index
with the expanded paths. -/
def expandManifest (man : RtManifest) : RtManifest :=
  { man with
    initiated := true
    pkgMatch := []
    pkgVersions := man.pkg.map (fun nv => (nv.1, nv.2.map (fun vp => (vp.1, vp.2.1))))
    midToUid :=
      man.pkg.foldl
        (fun acc nv =>
          nv.2.foldl
            (fun acc vp =>
              vp.2.2.foldl
                (fun acc pm => insertA pm.2 ⟨nv.1, vp.1, expandPathRt man.pre pm.1⟩ acc)
                acc)
            acc)
        []
    pkg :=
      man.pkg.map (fun nv =>
        (nv.1, nv.2.map (fun vp => (vp.1, (vp.2.1, expandPkgPaths man.pre vp.2.2))))) }

/-- initiateRuntimeManifestIfPresent (lines 164-207): a missing manifest
(the isolation attribute undefined) returns immediately, an initiated
manifest is untouched, otherwise the expansion pass runs once. -/
def initiateRuntimeManifestIfPresent (man? : Option RtManifest) : Option RtManifest :=
  match man? with
  | none => none
  | some man => if man.initiated then some man else some (expandManifest man)

/-- The hostName store in the beforeInit hook (line 377):
ownRequire.federation.isolation.hostName = ownHost.name.  With the
manifest absent the JS member write on undefined throws a TypeError,
modelled as the error outcome. -/
def beforeInitSetHostName (man? : Option RtManifest) (name : String) :
    Except Unit (Option RtManifest) :=
  match man? with
  | none => .error ()
  | some man => .ok (some { man with hostName := name })

/-- One step of build-time path minification (lines 140-157), with the
shared prefix accumulator (pre, prefixToIndex): strip loader and query
parts, and when the stripped path holds a slash split the full path at
the last slash of the stripped part; a prefix whose stored index reads as
falsy (absent, or index zero) is pushed again and remapped before the
minified key is formed from the current index. -/
def compactPathStep (st : List String × List (String × Nat))
    (minified : List (String × ModuleId)) (path : String) (mid : ModuleId) :
    (List String × List (String × Nat)) × List (String × ModuleId) :=
  let noLQ := takeUntilAny ['!', '?'] path.data
  match lastIdxOf '/' noLQ with
  | none => (st, insertA path mid minified)
  | some i =>
    let pref := String.mk (path.data.take i)
    let suffix := String.mk (path.data.drop (i + 1))
    let st' :=
      match lookupA pref st.2 with
      | none => (st.1 ++ [pref], insertA pref st.1.length st.2)
      | some n =>
        if n = 0 then (st.1 ++ [pref], insertA pref st.1.length st.2)
        else st
    let idx := (lookupA pref st'.2).getD 0
    (st', insertA (natToStr idx ++ "/" ++ suffix) mid minified)

/-- Minify one version's module-path record, threading the shared prefix
accumulator. -/
def compactModulePaths (st : List String × List (String × Nat))
    (paths : List (String × ModuleId)) :
    (List String × List (String × Nat)) × List (String × ModuleId) :=
  paths.foldl (fun acc pm => compactPathStep acc.1 acc.2 pm.1 pm.2) (st, [])

/-- The package part of getSizeOptimizedManifest (lines 131-165): minify
every version of every package, sharing the prefix accumulator across the
whole manifest; returns the prefixes array and the compacted package
table. -/
def getSizeOptimizedPkg
    (packages : List (String × List (String × PkgVersionData))) :
    List String × List (String × List (String × PkgVersionData)) :=
  let out := packages.foldl
    (fun acc nv =>
      let inner := nv.2.foldl
        (fun acc2 vp =>
          let r := compactModulePaths acc2.1 vp.2.2
          (r.1, acc2.2 ++ [(vp.1, (vp.2.1, r.2))]))
        (acc.1, [])
      (inner.1, acc.2 ++ [(nv.1, inner.2)]))
    ((([] : List String), ([] : List (String × Nat))), [])
  (out.1.1, out.2)

/-- The claim's concrete manifest: two module paths sharing the prefix
a/b, with ids 5 and 6 (JS record keys and template ids are strings). -/
def c6Packages : List (String × List (String × PkgVersionData)) :=
  [("p", [("1.0.0", ([], [("a/b/c.js", "5"), ("a/b/d.js", "6")]))])]

/-! ### The resolveShare loading chain

Translated from the resolveShare hook's loading continuation
(ModuleFederationIsolationRuntimePlugin.ts lines 437-510), the part that
runs after the original factory has been awaited.  The exports object
produced by the original factory and the exports recorded in the origin
cache are identified by numeric tokens standing for their references. -/
/-- A federation instance as seen through GlobalFederation.__INSTANCES__:
its name and, when it uses the plugin, its exposed webpack require. -/
structure PeerHost where
  name : String
  wreq : Option RegId
deriving DecidableEq, Repr

/-- What the wrapped resolver's loading promise resolves to: the
unmodified original factory, or a factory routing through a translation
require created with the recorded namespace, origin registry and provider
module id. -/
inductive LoadResult where
  | original
  | patched (ns : String) (origin : RegId) (mid : ModuleId)
deriving DecidableEq, Repr

/-- Inputs of one shared-dependency resolution. -/
structure ShareArgs where
  instances : List PeerHost
  fromName : String
  scope : String
  providedModuleId : Option ModuleId
  factoryToken : Nat
  pkgName : String
  pkgVersion : String
  hostName : String
  strategy : Strategy
deriving DecidableEq, Repr

/-- Outcome of one resolution: the loading result, the number of
warning-level diagnostics, the redirection table afterwards, and how many
times the fallback cache scan ran. -/
structure ShareOutcome where
  result : LoadResult
  warnings : Nat
  red : List (ModuleId × RedEntry)
  scans : Nat
deriving DecidableEq, Repr

/-- The isolation namespace construction (line 505). -/
def mkIsolationNamespace (hostName pkgName pkgVersion : String) : String :=
  "mfi/" ++ hostName ++ "/" ++ pkgName ++ "/" ++ pkgVersion

/-- The loading chain (lines 437-510): locate the origin host by name,
require its exposed webpack require, recover the consume-shared module id
from the scope mark, determine the provider module id (precomputed, or by
scanning the origin cache for the entry whose exports are
reference-identical to the instance the original factory produced), write
the redirection, and return the original factory under UseOrigin or on
any failure, otherwise the patched factory. -/
def resolveShareLoading (originCaches : RegId → List (ModuleId × Nat))
    (red : List (ModuleId × RedEntry)) (a : ShareArgs) : ShareOutcome :=
  match a.instances.find? (fun h => h.name == a.fromName) with
  | none => ⟨.original, 1, red, 0⟩
  | some host =>
    match host.wreq with
    | none => ⟨.original, 1, red, 0⟩
    | some originReg =>
      match subIdxOf a.scope.data "/mfi/scope/".data with
      | none => ⟨.original, 1, red, 0⟩
      | some i =>
        let ownConsumeId : ModuleId := String.mk (a.scope.data.take i)
        let found : Option ModuleId × Nat :=
          match a.providedModuleId with
          | some m => (some m, 0)
          | none =>
            (((originCaches originReg).find? (fun p => p.2 == a.factoryToken)).map Prod.fst, 1)
        match found.1 with
        | none => ⟨.original, 1, red, found.2⟩
        | some mid =>
          let red' := insertA ownConsumeId ⟨mid, some originReg⟩ red
          match a.strategy with
          | .useOrigin => ⟨.original, 0, red', found.2⟩
          | _ =>
            ⟨.patched (mkIsolationNamespace a.hostName a.pkgName a.pkgVersion) originReg mid,
             0, red', found.2⟩

/-- Resolution inputs for the namespace scenario: consumer H1 isolating
lib at 1.2.0 provided by H2, with a precomputed provider id. -/
def c7Args : ShareArgs :=
  ⟨[⟨"H2", some 1⟩], "H2", "csm1/mfi/scope/H1/default", some "libroot", 0,
   "lib", "1.2.0", "H1", .isolate⟩

/-- Inputs for the failure-containment witness: the origin host is not
among the federation instances. -/
def c8Args : ShareArgs :=
  ⟨[], "H2", "c/mfi/scope/s", none, 0, "lib", "1.0.0", "H1", .isolate⟩

/-- Resolution inputs for the scan scenario: no precomputed provider id,
so the fallback cache scan must identify the provider. -/
def c9Args : ShareArgs :=
  ⟨[⟨"H2", some 1⟩], "H2", "csm1/mfi/scope/H1/default", none, 42,
   "lib", "1.2.0", "H1", .isolate⟩

/-- Origin caches for the scan scenario: registry 1 holds the provider
whose exports token matches the factory instance. -/
def c9Caches : RegId → List (ModuleId × Nat) := fun r =>
  if r = 1 then [("libroot", 42)] else []

/-- Inputs for the scan witness: the provider id is precomputed, so no
scan runs. -/
def c9bArgs : ShareArgs :=
  ⟨[⟨"H2", some 1⟩], "H2", "csm1/mfi/scope/H1/default", some "libroot", 7,
   "lib", "1.2.0", "H1", .isolate⟩

/-! Theorems. -/

theorem lookupA_insertA_self {κ α : Type} [DecidableEq κ] (k : κ) (v : α)
    (l : List (κ × α)) : lookupA k (insertA k v l) = some v := by
  induction l with
  | nil => simp [insertA, lookupA]
  | cons h t ih =>
    by_cases hk : h.1 = k
    · simp [insertA, hk, lookupA]
    · simp [insertA, hk, lookupA, ih]

theorem lookupA_insertA_ne {κ α : Type} [DecidableEq κ] (k k' : κ) (v : α)
    (l : List (κ × α)) (h : k ≠ k') : lookupA k' (insertA k v l) = lookupA k' l := by
  induction l with
  | nil => simp [insertA, lookupA, h]
  | cons hd t ih =>
    by_cases hk : hd.1 = k
    · subst hk
      simp [insertA, lookupA, h, ih]
    · by_cases hk' : hd.1 = k'
      · simp [insertA, hk, lookupA, hk', Ne.symm h]
      · simp [insertA, hk, lookupA, hk', ih]

theorem lookupA_eraseA_self {κ α : Type} [DecidableEq κ] (k : κ)
    (l : List (κ × α)) : lookupA k (eraseA k l) = none := by
  induction l with
  | nil => simp [eraseA, lookupA]
  | cons h t ih =>
    by_cases hk : h.1 = k
    · simp [eraseA, hk, ih]
    · simp [eraseA, hk, lookupA, ih]

theorem lookupA_eraseA_ne {κ α : Type} [DecidableEq κ] (k k' : κ)
    (l : List (κ × α)) (h : k ≠ k') : lookupA k' (eraseA k l) = lookupA k' l := by
  induction l with
  | nil => simp [eraseA]
  | cons hd t ih =>
    by_cases hk : hd.1 = k
    · subst hk
      have : ¬ hd.1 = k' := h
      simp [eraseA, lookupA, this, ih]
    · by_cases hk' : hd.1 = k'
      · simp [eraseA, hk, lookupA, hk', Ne.symm h]
      · simp [eraseA, hk, lookupA, hk', ih]

theorem strSlash_ne (ns : String) {x y : String} (h : x ≠ y) :
    ns ++ "/" ++ x ≠ ns ++ "/" ++ y := by
  intro hc
  apply h
  have hd := congrArg String.data hc
  simp only [String.data_append] at hd
  have h2 := List.append_cancel_left hd
  cases x; cases y; exact congrArg String.mk h2

theorem nsSlash_ne_self (ns a : String) : ns ++ "/" ++ a ≠ a := by
  intro h
  have hl := congrArg String.length h
  simp [String.length_append] at hl
  exact (by decide : ¬ "/".length = 0) hl.2

/-- C1: for a dependency cycle (module x requires y which requires x, with
synthetic namespaced ids distinct from the module ids), resolving x through
the translation require under strategy Isolate terminates with a normal
result: the host require populates the synthetic cache slot before the
factory's dependency edges are traversed, the re-entrant require of x hits
that slot (the one recorded synthetic hit), and each module of the cycle is
instantiated exactly once in the namespace (the instantiation log). -/
theorem isolate_cycle_terminates_once (sat : String → String → Bool) (x y : ModuleId) (ns : String)
    (hxy : x ≠ y) (hfx : ns ++ "/" ++ x ≠ y) (hfy : ns ++ "/" ++ y ≠ x) :
    (match translationRequire sat 10 0 1 ns .isolate x (cycleWorld x y) with
     | .ok e w' => e = ns ++ "/" ++ x ∧
         w'.instLog = [(1, ns ++ "/" ++ x), (1, ns ++ "/" ++ y)] ∧
         w'.synthHits = [(1, ns ++ "/" ++ x)]
     | .jsError => False
     | .noFuel => False) := by
  have hoxoy : ns ++ "/" ++ x ≠ ns ++ "/" ++ y := strSlash_ne ns hxy
  have hxox : ns ++ "/" ++ x ≠ x := nsSlash_ne_self ns x
  have hyoy : ns ++ "/" ++ y ≠ y := nsSlash_ne_self ns y
  have eD : translationRequire sat 2 0 1 ns .isolate x
      { regs := [(0, { c := [], m := [], isolation := { emptyManifest with hostName := "own" } }),
          (1, { c := [(ns ++ "/" ++ x, ⟨ns ++ "/" ++ x⟩), (ns ++ "/" ++ y, ⟨ns ++ "/" ++ y⟩)], m := [(x, .orig [y]), (y, .orig [x]), (ns ++ "/" ++ x, .patched (.orig [y]) 0 1 ns .isolate), (ns ++ "/" ++ y, .patched (.orig [x]) 0 1 ns .isolate)], isolation := { emptyManifest with hostName := "origin" } })],
        instLog := [(1, ns ++ "/" ++ x), (1, ns ++ "/" ++ y)], synthHits := [] } = .ok (ns ++ "/" ++ x)
      { regs := [(0, { c := [], m := [], isolation := { emptyManifest with hostName := "own" } }),
          (1, { c := [(ns ++ "/" ++ x, ⟨ns ++ "/" ++ x⟩), (ns ++ "/" ++ y, ⟨ns ++ "/" ++ y⟩)], m := [(x, .orig [y]), (y, .orig [x]), (ns ++ "/" ++ x, .patched (.orig [y]) 0 1 ns .isolate), (ns ++ "/" ++ y, .patched (.orig [x]) 0 1 ns .isolate)], isolation := { emptyManifest with hostName := "origin" } })],
        instLog := [(1, ns ++ "/" ++ x), (1, ns ++ "/" ++ y)], synthHits := [(1, ns ++ "/" ++ x)] } := by
    simp [translationRequire, translationPrep, applyRedirection, webpackRequire, runFactory, depsTranslate, depsRequire, getRegD, setRegW, lookupA, insertA, eraseA, emptyManifest, cycleWorld, hxy, Ne.symm hxy, hoxoy, Ne.symm hoxoy, hxox, Ne.symm hxox, hyoy, Ne.symm hyoy, hfx, Ne.symm hfx, hfy, Ne.symm hfy]
  have eE : depsTranslate sat 3 [x] 0 1 ns .isolate
      { regs := [(0, { c := [], m := [], isolation := { emptyManifest with hostName := "own" } }),
          (1, { c := [(ns ++ "/" ++ x, ⟨ns ++ "/" ++ x⟩), (ns ++ "/" ++ y, ⟨ns ++ "/" ++ y⟩)], m := [(x, .orig [y]), (y, .orig [x]), (ns ++ "/" ++ x, .patched (.orig [y]) 0 1 ns .isolate), (ns ++ "/" ++ y, .patched (.orig [x]) 0 1 ns .isolate)], isolation := { emptyManifest with hostName := "origin" } })],
        instLog := [(1, ns ++ "/" ++ x), (1, ns ++ "/" ++ y)], synthHits := [] } = .ok ()
      { regs := [(0, { c := [], m := [], isolation := { emptyManifest with hostName := "own" } }),
          (1, { c := [(ns ++ "/" ++ x, ⟨ns ++ "/" ++ x⟩), (ns ++ "/" ++ y, ⟨ns ++ "/" ++ y⟩)], m := [(x, .orig [y]), (y, .orig [x]), (ns ++ "/" ++ x, .patched (.orig [y]) 0 1 ns .isolate), (ns ++ "/" ++ y, .patched (.orig [x]) 0 1 ns .isolate)], isolation := { emptyManifest with hostName := "origin" } })],
        instLog := [(1, ns ++ "/" ++ x), (1, ns ++ "/" ++ y)], synthHits := [(1, ns ++ "/" ++ x)] } := by
    simp [depsTranslate, eD]
  have eF : runFactory sat 4 (.patched (.orig [x]) 0 1 ns .isolate) 1
      { regs := [(0, { c := [], m := [], isolation := { emptyManifest with hostName := "own" } }),
          (1, { c := [(ns ++ "/" ++ x, ⟨ns ++ "/" ++ x⟩), (ns ++ "/" ++ y, ⟨ns ++ "/" ++ y⟩)], m := [(x, .orig [y]), (y, .orig [x]), (ns ++ "/" ++ x, .patched (.orig [y]) 0 1 ns .isolate), (ns ++ "/" ++ y, .patched (.orig [x]) 0 1 ns .isolate)], isolation := { emptyManifest with hostName := "origin" } })],
        instLog := [(1, ns ++ "/" ++ x), (1, ns ++ "/" ++ y)], synthHits := [] } = .ok ()
      { regs := [(0, { c := [], m := [], isolation := { emptyManifest with hostName := "own" } }),
          (1, { c := [(ns ++ "/" ++ x, ⟨ns ++ "/" ++ x⟩), (ns ++ "/" ++ y, ⟨ns ++ "/" ++ y⟩)], m := [(x, .orig [y]), (y, .orig [x]), (ns ++ "/" ++ x, .patched (.orig [y]) 0 1 ns .isolate), (ns ++ "/" ++ y, .patched (.orig [x]) 0 1 ns .isolate)], isolation := { emptyManifest with hostName := "origin" } })],
        instLog := [(1, ns ++ "/" ++ x), (1, ns ++ "/" ++ y)], synthHits := [(1, ns ++ "/" ++ x)] } := by
    simp [runFactory, eE]
  have eG : webpackRequire sat 5 1 (ns ++ "/" ++ y)
      { regs := [(0, { c := [], m := [], isolation := { emptyManifest with hostName := "own" } }),
          (1, { c := [(ns ++ "/" ++ x, ⟨ns ++ "/" ++ x⟩)], m := [(x, .orig [y]), (y, .orig [x]), (ns ++ "/" ++ x, .patched (.orig [y]) 0 1 ns .isolate), (ns ++ "/" ++ y, .patched (.orig [x]) 0 1 ns .isolate)], isolation := { emptyManifest with hostName := "origin" } })],
        instLog := [(1, ns ++ "/" ++ x)], synthHits := [] } = .ok (ns ++ "/" ++ y)
      { regs := [(0, { c := [], m := [], isolation := { emptyManifest with hostName := "own" } }),
          (1, { c := [(ns ++ "/" ++ x, ⟨ns ++ "/" ++ x⟩), (ns ++ "/" ++ y, ⟨ns ++ "/" ++ y⟩)], m := [(x, .orig [y]), (y, .orig [x]), (ns ++ "/" ++ x, .patched (.orig [y]) 0 1 ns .isolate), (ns ++ "/" ++ y, .patched (.orig [x]) 0 1 ns .isolate)], isolation := { emptyManifest with hostName := "origin" } })],
        instLog := [(1, ns ++ "/" ++ x), (1, ns ++ "/" ++ y)], synthHits := [(1, ns ++ "/" ++ x)] } := by
    simp [translationRequire, translationPrep, applyRedirection, webpackRequire, runFactory, depsTranslate, depsRequire, getRegD, setRegW, lookupA, insertA, eraseA, emptyManifest, cycleWorld, hxy, Ne.symm hxy, hoxoy, Ne.symm hoxoy, hxox, Ne.symm hxox, hyoy, Ne.symm hyoy, hfx, Ne.symm hfx, hfy, Ne.symm hfy, eF]
  have eH : translationRequire sat 6 0 1 ns .isolate y
      { regs := [(0, { c := [], m := [], isolation := { emptyManifest with hostName := "own" } }),
          (1, { c := [(ns ++ "/" ++ x, ⟨ns ++ "/" ++ x⟩)], m := [(x, .orig [y]), (y, .orig [x]), (ns ++ "/" ++ x, .patched (.orig [y]) 0 1 ns .isolate)], isolation := { emptyManifest with hostName := "origin" } })],
        instLog := [(1, ns ++ "/" ++ x)], synthHits := [] } = .ok (ns ++ "/" ++ y)
      { regs := [(0, { c := [(ns ++ "/" ++ y, ⟨ns ++ "/" ++ y⟩)], m := [], isolation := { emptyManifest with hostName := "own" } }),
          (1, { c := [(ns ++ "/" ++ x, ⟨ns ++ "/" ++ x⟩)], m := [(x, .orig [y]), (y, .orig [x]), (ns ++ "/" ++ x, .patched (.orig [y]) 0 1 ns .isolate)], isolation := { emptyManifest with hostName := "origin" } })],
        instLog := [(1, ns ++ "/" ++ x), (1, ns ++ "/" ++ y)], synthHits := [(1, ns ++ "/" ++ x)] } := by
    simp [translationRequire, translationPrep, applyRedirection, webpackRequire, runFactory, depsTranslate, depsRequire, getRegD, setRegW, lookupA, insertA, eraseA, emptyManifest, cycleWorld, hxy, Ne.symm hxy, hoxoy, Ne.symm hoxoy, hxox, Ne.symm hxox, hyoy, Ne.symm hyoy, hfx, Ne.symm hfx, hfy, Ne.symm hfy, eG]
  have eI : depsTranslate sat 7 [y] 0 1 ns .isolate
      { regs := [(0, { c := [], m := [], isolation := { emptyManifest with hostName := "own" } }),
          (1, { c := [(ns ++ "/" ++ x, ⟨ns ++ "/" ++ x⟩)], m := [(x, .orig [y]), (y, .orig [x]), (ns ++ "/" ++ x, .patched (.orig [y]) 0 1 ns .isolate)], isolation := { emptyManifest with hostName := "origin" } })],
        instLog := [(1, ns ++ "/" ++ x)], synthHits := [] } = .ok ()
      { regs := [(0, { c := [(ns ++ "/" ++ y, ⟨ns ++ "/" ++ y⟩)], m := [], isolation := { emptyManifest with hostName := "own" } }),
          (1, { c := [(ns ++ "/" ++ x, ⟨ns ++ "/" ++ x⟩)], m := [(x, .orig [y]), (y, .orig [x]), (ns ++ "/" ++ x, .patched (.orig [y]) 0 1 ns .isolate)], isolation := { emptyManifest with hostName := "origin" } })],
        instLog := [(1, ns ++ "/" ++ x), (1, ns ++ "/" ++ y)], synthHits := [(1, ns ++ "/" ++ x)] } := by
    simp [depsTranslate, eH]
  have eJ : runFactory sat 8 (.patched (.orig [y]) 0 1 ns .isolate) 1
      { regs := [(0, { c := [], m := [], isolation := { emptyManifest with hostName := "own" } }),
          (1, { c := [(ns ++ "/" ++ x, ⟨ns ++ "/" ++ x⟩)], m := [(x, .orig [y]), (y, .orig [x]), (ns ++ "/" ++ x, .patched (.orig [y]) 0 1 ns .isolate)], isolation := { emptyManifest with hostName := "origin" } })],
        instLog := [(1, ns ++ "/" ++ x)], synthHits := [] } = .ok ()
      { regs := [(0, { c := [(ns ++ "/" ++ y, ⟨ns ++ "/" ++ y⟩)], m := [], isolation := { emptyManifest with hostName := "own" } }),
          (1, { c := [(ns ++ "/" ++ x, ⟨ns ++ "/" ++ x⟩)], m := [(x, .orig [y]), (y, .orig [x]), (ns ++ "/" ++ x, .patched (.orig [y]) 0 1 ns .isolate)], isolation := { emptyManifest with hostName := "origin" } })],
        instLog := [(1, ns ++ "/" ++ x), (1, ns ++ "/" ++ y)], synthHits := [(1, ns ++ "/" ++ x)] } := by
    simp [runFactory, eI]
  have eK : webpackRequire sat 9 1 (ns ++ "/" ++ x)
      { regs := [(0, { c := [], m := [], isolation := { emptyManifest with hostName := "own" } }),
          (1, { c := [], m := [(x, .orig [y]), (y, .orig [x]), (ns ++ "/" ++ x, .patched (.orig [y]) 0 1 ns .isolate)], isolation := { emptyManifest with hostName := "origin" } })],
        instLog := [], synthHits := [] } = .ok (ns ++ "/" ++ x)
      { regs := [(0, { c := [(ns ++ "/" ++ y, ⟨ns ++ "/" ++ y⟩)], m := [], isolation := { emptyManifest with hostName := "own" } }),
          (1, { c := [(ns ++ "/" ++ x, ⟨ns ++ "/" ++ x⟩)], m := [(x, .orig [y]), (y, .orig [x]), (ns ++ "/" ++ x, .patched (.orig [y]) 0 1 ns .isolate)], isolation := { emptyManifest with hostName := "origin" } })],
        instLog := [(1, ns ++ "/" ++ x), (1, ns ++ "/" ++ y)], synthHits := [(1, ns ++ "/" ++ x)] } := by
    simp [translationRequire, translationPrep, applyRedirection, webpackRequire, runFactory, depsTranslate, depsRequire, getRegD, setRegW, lookupA, insertA, eraseA, emptyManifest, cycleWorld, hxy, Ne.symm hxy, hoxoy, Ne.symm hoxoy, hxox, Ne.symm hxox, hyoy, Ne.symm hyoy, hfx, Ne.symm hfx, hfy, Ne.symm hfy, eJ]
  have eL : translationRequire sat 10 0 1 ns .isolate x (cycleWorld x y) = .ok (ns ++ "/" ++ x)
      { regs := [(0, { c := [(ns ++ "/" ++ y, ⟨ns ++ "/" ++ y⟩), (ns ++ "/" ++ x, ⟨ns ++ "/" ++ x⟩)], m := [], isolation := { emptyManifest with hostName := "own" } }),
          (1, { c := [], m := [(x, .orig [y]), (y, .orig [x])], isolation := { emptyManifest with hostName := "origin" } })],
        instLog := [(1, ns ++ "/" ++ x), (1, ns ++ "/" ++ y)], synthHits := [(1, ns ++ "/" ++ x)] } := by
    simp [translationRequire, translationPrep, applyRedirection, webpackRequire, runFactory, depsTranslate, depsRequire, getRegD, setRegW, lookupA, insertA, eraseA, emptyManifest, cycleWorld, hxy, Ne.symm hxy, hoxoy, Ne.symm hoxoy, hxox, Ne.symm hxox, hyoy, Ne.symm hyoy, hfx, Ne.symm hfx, hfy, Ne.symm hfy, eK]
  simp [eL]

theorem getRegD_setRegW_self (w : World) (r : RegId) (R : Registry) :
    getRegD (setRegW r R w) r = R := by
  simp [getRegD, setRegW, lookupA_insertA_self]

theorem getRegD_setRegW_ne (w : World) (r r' : RegId) (R : Registry) (h : r ≠ r') :
    getRegD (setRegW r R w) r' = getRegD w r' := by
  simp [getRegD, setRegW, lookupA_insertA_ne _ _ _ _ h]

/-- C2: after a cache-miss resolution through the translation require
completes, the resulting cache entry lives in the consumer registry's cache
under the target id and carries the returned exports; and whenever the
permanent entry now lives in a different registry or under a different id,
the synthetic bookkeeping entries (the patched factory and the namespaced
cache slot) are no longer present in the origin registry. -/
theorem translation_promotion_cleanup (sat : String → String → Bool) (fuel : Nat)
    (own origin0 : RegId) (ns : String) (strat : Strategy) (mid0 : ModuleId)
    (w : World) (mid : ModuleId) (origin : RegId) (ownMid? : Option ModuleId)
    (w1 : World) (e : ModuleId) (w' : World)
    (hprep : translationPrep sat own origin0 strat mid0 w = .ok (mid, origin, ownMid?, w1))
    (hmiss1 : lookupA (ownMid?.getD (ns ++ "/" ++ mid)) (getRegD w1 own).c = none)
    (hmiss2 : lookupA (ns ++ "/" ++ mid) (getRegD w1 origin).c = none)
    (hrun : translationRequire sat (fuel + 1) own origin0 ns strat mid0 w = .ok e w') :
    (∃ rec, lookupA (ownMid?.getD (ns ++ "/" ++ mid)) (getRegD w' own).c = some rec ∧
       rec.exports = e) ∧
    ((own ≠ origin ∨ ownMid?.getD (ns ++ "/" ++ mid) ≠ ns ++ "/" ++ mid) →
      lookupA (ns ++ "/" ++ mid) (getRegD w' origin).c = none ∧
      lookupA (ns ++ "/" ++ mid) (getRegD w' origin).m = none) := by
  rw [translationRequire] at hrun
  simp only [hprep, hmiss1, hmiss2] at hrun
  rcases hm : lookupA mid (getRegD w1 origin).m with _ | f
  · simp only [hm] at hrun
    exact absurd hrun (by simp)
  · simp only [hm] at hrun
    rcases hw : webpackRequire sat fuel origin (ns ++ "/" ++ mid)
        (setRegW origin
          { getRegD w1 origin with
            m := insertA (ns ++ "/" ++ mid)
                (.patched f own origin ns strat) (getRegD w1 origin).m } w1) with ⟨a, w2⟩ | _ | _
    · simp only [hw] at hrun
      rcases hc : lookupA (ns ++ "/" ++ mid) (getRegD w2 origin).c with _ | rec
      · simp only [hc] at hrun
        exact absurd hrun (by simp)
      · simp only [hc] at hrun
        set ownId := ownMid?.getD (ns ++ "/" ++ mid) with hOwnId
        set isoId := ns ++ "/" ++ mid with hIsoId
        set w2' := setRegW own
          { getRegD w2 own with c := insertA ownId rec (getRegD w2 own).c } w2 with hw2'
        by_cases hcond : own ≠ origin ∨ ownId ≠ isoId
        · simp only [if_pos hcond] at hrun
          set OR2 := getRegD w2' origin with hOR2
          set w3 := setRegW origin
            { OR2 with c := eraseA isoId OR2.c, m := eraseA isoId OR2.m } w2' with hw3
          rcases hf : lookupA ownId (getRegD w3 own).c with _ | rec2
          · simp only [hf] at hrun
            exact absurd hrun (by simp)
          · simp only [hf] at hrun
            have he : rec2.exports = e := by
              injection hrun with h1 h2
            have hww : w' = w3 := by
              injection hrun with h1 h2
              exact h2.symm
            subst hww
            refine ⟨⟨rec2, hf, he⟩, fun _ => ?_⟩
            constructor
            · rw [hw3, getRegD_setRegW_self]
              exact lookupA_eraseA_self _ _
            · rw [hw3, getRegD_setRegW_self]
              exact lookupA_eraseA_self _ _
        · simp only [if_neg hcond] at hrun
          push_neg at hcond
          rcases hf : lookupA ownId (getRegD w2' own).c with _ | rec2
          · simp only [hf] at hrun
            exact absurd hrun (by simp)
          · simp only [hf] at hrun
            have he : rec2.exports = e := by injection hrun
            have hww : w' = w2' := by
              injection hrun with h1 h2
              exact h2.symm
            subst hww
            refine ⟨⟨rec2, hf, he⟩, fun hcc => ?_⟩
            exact absurd hcc (by
              push_neg
              exact hcond)
    · simp only [hw] at hrun
      exact absurd hrun (by simp)
    · simp only [hw] at hrun
      exact absurd hrun (by simp)

theorem isolate_cycle_terminates_once_witness :
    (match translationRequire miniSat 10 0 1 "N" .isolate "X" (cycleWorld "X" "Y") with
     | .ok e w' => e = "N" ++ "/" ++ "X" ∧
         w'.instLog = [(1, "N" ++ "/" ++ "X"), (1, "N" ++ "/" ++ "Y")] ∧
         w'.synthHits = [(1, "N" ++ "/" ++ "X")]
     | .jsError => False
     | .noFuel => False) :=
  isolate_cycle_terminates_once miniSat "X" "Y" "N" (by decide) (by decide) (by decide)

theorem translation_promotion_cleanup_witness :
    (∃ rec, lookupA ((none : Option ModuleId).getD ("N" ++ "/" ++ "X"))
        (getRegD promoFinal 0).c = some rec ∧ rec.exports = "N/X") ∧
    (((0 : RegId) ≠ 1 ∨ (none : Option ModuleId).getD ("N" ++ "/" ++ "X") ≠ "N" ++ "/" ++ "X") →
      lookupA ("N" ++ "/" ++ "X") (getRegD promoFinal 1).c = none ∧
      lookupA ("N" ++ "/" ++ "X") (getRegD promoFinal 1).m = none) :=
  translation_promotion_cleanup miniSat 4 0 1 "N" .isolate "X" promoWorld "X" 1 none
    promoWorld "N/X" promoFinal (by decide) (by decide) (by decide) (by decide)

theorem find?_constFalse {α : Type} (l : List α) :
    l.find? (fun _ => false) = none := by
  induction l with
  | nil => rfl
  | cons h t ih => simp [List.find?, ih]

theorem snd_eq_refSnd (sat : String → String → Bool) (ownMan : RtManifest)
    (ownCache : List (ModuleId × ModuleRec)) (u : Uid)
    (o : Option (List (String × List String))) :
    computeOwnVersionSnd sat ownMan ownCache u o =
      reuseOwnRefSnd sat ownMan ownCache u (o.getD []) := by
  cases o with
  | none => simp [computeOwnVersionSnd, reuseOwnRefSnd, findOwnRangesSatisfiedByOrigin]
  | some l => rfl

/-- C3 (amended): the fresh ReuseOwn search equals the reference
formulation built from the two direction-labelled finders: first the first
local version whose version satisfies every range recorded against the
origin's version, used only when its module is already instantiated;
otherwise the first local version all of whose own recorded ranges are
satisfied by the origin's version, claimed only when not yet
instantiated. -/
theorem reuseOwn_matching_order (sat : String → String → Bool) (ownMan : RtManifest)
    (ownCache : List (ModuleId × ModuleRec)) (originMan : RtManifest) (u : Uid) :
    computeOwnVersionFresh sat ownMan ownCache originMan u =
      reuseOwnMatchRef sat ownMan ownCache originMan u := by
  unfold computeOwnVersionFresh reuseOwnMatchRef
  cases horig : lookupA u.pkgName originMan.pkgVersions with
  | none => rfl
  | some originVers =>
    cases hown : lookupA u.pkgName ownMan.pkgVersions with
    | none =>
      cases hfv : originVers.find? (fun p => p.1 == u.pkgVersion) with
      | none => simp [hfv, snd_eq_refSnd]
      | some ov => simp [hfv, snd_eq_refSnd, findOwnSatisfyingOriginRanges]
    | some l =>
      cases hfv : originVers.find? (fun p => p.1 == u.pkgVersion) with
      | none => simp [hfv, snd_eq_refSnd, find?_constFalse]
      | some ov =>
        simp only [hfv, findOwnSatisfyingOriginRanges]
        cases hfa : l.find? (fun p => ov.2.all (fun range => sat p.1 range)) with
        | none => simp [hfa, snd_eq_refSnd]
        | some pA =>
          simp only [hfa]
          cases hinst : ownPathInstantiated ownMan ownCache u.pkgName pA.1 u.modulePath with
          | error e => simp [hfa, hinst]
          | ok b => cases b <;> simp [hfa, hinst, snd_eq_refSnd]

/-- C3 counterexample: on own lib 1.5.0 (recorded range ^1.0.0, module
instantiated) against origin lib 1.2.0 (recorded range ~1.2.0), the code
finds no substitute, while the order stated by the claim (instantiated
local version whose declared ranges the origin version satisfies, first)
would reuse 1.5.0. -/
theorem reuseOwn_direction_counterexample :
    computeOwnVersionFresh miniSat c3OwnMan c3Cache c3OriginMan c3U = .ok none ∧
    reuseOwnMatchClaimed miniSat c3OwnMan c3Cache c3OriginMan c3U = some "1.5.0" := by
  constructor <;> decide

/-- C4: the ReuseOwn version match is memoized per (origin host name,
package identity) pair: a cached outcome, the explicit none included, is
returned without running the search and independently of the
semantic-versioning predicate; after any resolution the outcome is in
pkgMatch, so the search runs at most once per pair. -/
theorem reuseOwn_match_memoized (ownMan : RtManifest)
    (ownCache : List (ModuleId × ModuleRec)) (originMan : RtManifest) (u : Uid) :
    (∀ (sat : String → String → Bool) (cached : Option String),
      (lookupA originMan.hostName ownMan.pkgMatch).bind
          (fun inner => lookupA (pkgUniversalId u) inner) = some cached →
      resolveOwnVersion sat ownMan ownCache originMan u = .ok (cached, ownMan, false)) ∧
    (∀ (sat : String → String → Bool) (res : Option String) (man' : RtManifest) (b : Bool),
      resolveOwnVersion sat ownMan ownCache originMan u = .ok (res, man', b) →
      (lookupA originMan.hostName man'.pkgMatch).bind
          (fun inner => lookupA (pkgUniversalId u) inner) = some res) ∧
    (∀ (sat sat' : String → String → Bool) (res : Option String) (man' : RtManifest)
        (b : Bool) (ownCache' : List (ModuleId × ModuleRec)),
      resolveOwnVersion sat ownMan ownCache originMan u = .ok (res, man', b) →
      resolveOwnVersion sat' man' ownCache' originMan u = .ok (res, man', false)) := by
  have part1 : ∀ (man : RtManifest) (cache : List (ModuleId × ModuleRec))
      (sat : String → String → Bool) (cached : Option String),
      (lookupA originMan.hostName man.pkgMatch).bind
          (fun inner => lookupA (pkgUniversalId u) inner) = some cached →
      resolveOwnVersion sat man cache originMan u = .ok (cached, man, false) := by
    intro man cache sat cached hc
    unfold resolveOwnVersion
    simp only [hc]
  have part2 : ∀ (sat : String → String → Bool) (res : Option String)
      (man' : RtManifest) (b : Bool),
      resolveOwnVersion sat ownMan ownCache originMan u = .ok (res, man', b) →
      (lookupA originMan.hostName man'.pkgMatch).bind
          (fun inner => lookupA (pkgUniversalId u) inner) = some res := by
    intro sat res man' b hr
    unfold resolveOwnVersion at hr
    cases hc : (lookupA originMan.hostName ownMan.pkgMatch).bind
        (fun inner => lookupA (pkgUniversalId u) inner) with
    | some cached =>
      simp only [hc, Except.ok.injEq, Prod.mk.injEq] at hr
      obtain ⟨h1, h2, h3⟩ := hr
      subst h1
      subst h2
      exact hc
    | none =>
      simp only [hc] at hr
      cases hfresh : computeOwnVersionFresh sat ownMan ownCache originMan u with
      | error e =>
        simp only [hfresh] at hr
        exact absurd hr (by simp)
      | ok r =>
        simp only [hfresh, Except.ok.injEq, Prod.mk.injEq] at hr
        obtain ⟨h1, h2, h3⟩ := hr
        subst h1
        subst h2
        simp [lookupA_insertA_self]
  exact ⟨part1 ownMan ownCache, part2, by
    intro sat sat' res man' b ownCache' hr
    exact part1 man' ownCache' sat' res (part2 sat res man' b hr)⟩

theorem reuseOwn_match_memoized_witness :
    ((lookupA c3OriginMan.hostName c4Man.pkgMatch).bind
        (fun inner => lookupA (pkgUniversalId c3U) inner) = some none) ∧
    resolveOwnVersion miniSat c4Man c3Cache c3OriginMan c3U = .ok (none, c4Man, false) :=
  ⟨(reuseOwn_match_memoized c3OwnMan c3Cache c3OriginMan c3U).2.1 miniSat none c4Man true
      (by decide),
   (reuseOwn_match_memoized c3OwnMan c3Cache c3OriginMan c3U).2.2 miniSat miniSat none c4Man
      true c3Cache (by decide)⟩

/-- C10: a redirection-table entry is applied only when it carries both a
truthy target module id and a registry handle; an entry missing either
field, or an absent entry, leaves the requested id to be resolved as an
ordinary module of the origin registry. -/
theorem redirection_requires_both_fields (origin0 : RegId)
    (red : List (ModuleId × RedEntry)) (mid0 : ModuleId) :
    (∀ e r, lookupA mid0 red = some e → e.mid ≠ "" → e.webpackRequire = some r →
      applyRedirection origin0 red mid0 = (e.mid, r)) ∧
    (∀ e, lookupA mid0 red = some e → e.mid = "" ∨ e.webpackRequire = none →
      applyRedirection origin0 red mid0 = (mid0, origin0)) ∧
    (lookupA mid0 red = none → applyRedirection origin0 red mid0 = (mid0, origin0)) := by
  refine ⟨?_, ?_, ?_⟩
  · intro e r he hmid hreq
    simp [applyRedirection, he, hreq, hmid]
  · intro e he hor
    rcases hor with hmid | hreq
    · simp [applyRedirection, he, hmid]
      cases hw : e.webpackRequire <;> simp
    · simp [applyRedirection, he, hreq]
  · intro he
    simp [applyRedirection, he]

theorem redirection_requires_both_fields_witness :
    applyRedirection 1 c10Red "a" = ("b", 7) ∧
    applyRedirection 1 c10Red "c" = ("c", 1) ∧
    applyRedirection 1 c10Red "e" = ("e", 1) ∧
    applyRedirection 1 c10Red "zz" = ("zz", 1) :=
  ⟨(redirection_requires_both_fields 1 c10Red "a").1 ⟨"b", some 7⟩ 7 (by decide) (by decide)
      (by decide),
   (redirection_requires_both_fields 1 c10Red "c").2.1 ⟨"d", none⟩ (by decide)
      (Or.inr (by decide)),
   (redirection_requires_both_fields 1 c10Red "e").2.1 ⟨"", some 3⟩ (by decide)
      (Or.inl (by decide)),
   (redirection_requires_both_fields 1 c10Red "zz").2.2 (by decide)⟩

/-- C5: with the manifest absent, manifest initialization returns
immediately as a no-op, but the beforeInit hook's hostName store is a
member write on undefined and throws, contradicting the claim that every
hook completes without throwing. -/
theorem manifest_absent_is_noop_but_beforeInit_throws :
    initiateRuntimeManifestIfPresent none = none ∧
    beforeInitSetHostName none "H1" = .error () :=
  ⟨rfl, rfl⟩

/-- C6: compacting the mapping a/b/c.js to 5 and a/b/d.js to 6 and then
running the runtime expansion pass reproduces the original path-to-id
mapping exactly, but the compacted prefixes array holds a/b twice, not
once: the falsy membership test re-pushes the prefix stored at index
zero. -/
theorem manifest_roundtrip_prefix_duplicated :
    (getSizeOptimizedPkg c6Packages).1 = ["a/b", "a/b"] ∧
    (getSizeOptimizedPkg c6Packages).2 =
      [("p", [("1.0.0", ([], [("0/c.js", "5"), ("1/d.js", "6")]))])] ∧
    (match initiateRuntimeManifestIfPresent
        (some { emptyManifest with
                pre := (getSizeOptimizedPkg c6Packages).1,
                pkg := (getSizeOptimizedPkg c6Packages).2 }) with
     | some man => lookupA "p" man.pkg
     | none => none) =
      some [("1.0.0", ([], [("a/b/c.js", "5"), ("a/b/d.js", "6")]))] ∧
    List.count "a/b" (getSizeOptimizedPkg c6Packages).1 = 2 := by
  refine ⟨by decide, by decide, by decide, by decide⟩

theorem noSlash_append_inj (a : List Char) {a' b b' : List Char}
    (ha : '/' ∉ a) (ha' : '/' ∉ a') :
    a ++ '/' :: b = a' ++ '/' :: b' → a = a' ∧ b = b' := by
  induction a generalizing a' with
  | nil =>
    cases a' with
    | nil =>
      intro h
      simp only [List.nil_append, List.cons.injEq] at h
      exact ⟨rfl, h.2⟩
    | cons c t =>
      intro h
      simp only [List.nil_append, List.cons_append, List.cons.injEq] at h
      exact absurd (h.1 ▸ List.mem_cons_self c t) ha'
  | cons c t ih =>
    cases a' with
    | nil =>
      intro h
      simp only [List.nil_append, List.cons_append, List.cons.injEq] at h
      exact absurd (h.1.symm ▸ List.mem_cons_self c t) ha
    | cons c' t' =>
      intro h
      simp only [List.cons_append, List.cons.injEq] at h
      obtain ⟨hc, ht⟩ := h
      have hta : '/' ∉ t := fun hm => ha (List.mem_cons_of_mem c hm)
      have hta' : '/' ∉ t' := fun hm => ha' (List.mem_cons_of_mem c' hm)
      obtain ⟨h1, h2⟩ := ih hta hta' ht
      exact ⟨by rw [hc, h1], h2⟩

/-- C7 (amended): every resolution with a strategy other than UseOrigin
that produces a patched factory carries the namespace mfi/ followed by the
consuming bundle name, the package name and the package version; and the
namespace constructor is injective on triples whose host and package names
hold no slash. -/
theorem namespace_format_and_uniqueness :
    (∀ (caches : RegId → List (ModuleId × Nat)) (red : List (ModuleId × RedEntry))
        (a : ShareArgs) (ns : String) (o : RegId) (m : ModuleId),
      a.strategy ≠ .useOrigin →
      (resolveShareLoading caches red a).result = .patched ns o m →
      ns = "mfi/" ++ a.hostName ++ "/" ++ a.pkgName ++ "/" ++ a.pkgVersion) ∧
    (∀ h p v h' p' v' : String,
      '/' ∉ h.data → '/' ∉ p.data → '/' ∉ h'.data → '/' ∉ p'.data →
      mkIsolationNamespace h p v = mkIsolationNamespace h' p' v' →
      h = h' ∧ p = p' ∧ v = v') := by
  constructor
  · intro caches red a ns o m hstrat hres
    unfold resolveShareLoading at hres
    rcases hfind : a.instances.find? (fun hh => hh.name == a.fromName) with _ | host
    · simp only [hfind] at hres
      exact absurd hres (by simp)
    · simp only [hfind] at hres
      rcases hw : host.wreq with _ | reg
      · simp only [hw] at hres
        exact absurd hres (by simp)
      · simp only [hw] at hres
        rcases hidx : subIdxOf a.scope.data "/mfi/scope/".data with _ | i
        · simp only [hidx] at hres
          exact absurd hres (by simp)
        · simp only [hidx] at hres
          rcases hpm : a.providedModuleId with _ | pm
          · simp only [hpm] at hres
            rcases hscan : ((caches reg).find? (fun p => p.2 == a.factoryToken)) with _ | hit
            · simp only [hscan] at hres
              exact absurd hres (by simp)
            · simp only [hscan] at hres
              injection hres with h1 h2 h3
              exact h1.symm.trans rfl
          · simp only [hpm] at hres
            injection hres with h1 h2 h3
            exact h1.symm.trans rfl
  · intro h p v h' p' v' hh hp hh' hp' heq
    have hd := congrArg String.data heq
    simp only [mkIsolationNamespace, String.data_append, List.append_assoc] at hd
    have hd' : h.data ++ '/' :: (p.data ++ '/' :: v.data) =
        h'.data ++ '/' :: (p'.data ++ '/' :: v'.data) := by
      simpa using hd
    obtain ⟨h1, h2⟩ := noSlash_append_inj h.data hh hh' hd'
    obtain ⟨h3, h4⟩ := noSlash_append_inj p.data hp hp' h2
    refine ⟨?_, ?_, ?_⟩
    · cases h; cases h'; exact congrArg String.mk h1
    · cases p; cases p'; exact congrArg String.mk h3
    · cases v; cases v'; exact congrArg String.mk h4

/-- C7 counterexample: the concrete resolution of lib 1.2.0 by consumer
H1 produces the namespace mfi/H1/lib/1.2.0, not the claimed
isolation/H1/lib/1.2.0. -/
theorem namespace_not_isolation_counterexample :
    (resolveShareLoading (fun _ => []) [] c7Args).result =
      .patched "mfi/H1/lib/1.2.0" 1 "libroot" ∧
    "mfi/H1/lib/1.2.0" ≠ "isolation" ++ "/" ++ "H1" ++ "/" ++ "lib" ++ "/" ++ "1.2.0" := by
  refine ⟨by decide, by decide⟩

theorem namespace_format_and_uniqueness_witness :
    "mfi/H1/lib/1.2.0" = "mfi/" ++ "H1" ++ "/" ++ "lib" ++ "/" ++ "1.2.0" ∧
    ("H1" = "H1" ∧ "lib" = "lib" ∧ "1.2.0" = "1.2.0") :=
  ⟨namespace_format_and_uniqueness.1 (fun _ => []) [] c7Args "mfi/H1/lib/1.2.0" 1 "libroot"
      (by decide) (by decide),
   namespace_format_and_uniqueness.2 "H1" "lib" "1.2.0" "H1" "lib" "1.2.0"
      (by decide) (by decide) (by decide) (by decide) (by decide)⟩

/-- C8: every provider-location failure is contained: the loading result is
the unmodified original factory, at least one warning-level diagnostic is
emitted, the redirection table is untouched, and the chain is a total
function (nothing is thrown out of the module-loading sequence). -/
theorem share_failure_contained (caches : RegId → List (ModuleId × Nat))
    (red : List (ModuleId × RedEntry)) (a : ShareArgs)
    (h : a.instances.find? (fun hh => hh.name == a.fromName) = none ∨
      (∃ host, a.instances.find? (fun hh => hh.name == a.fromName) = some host ∧
        host.wreq = none) ∨
      (∃ host reg, a.instances.find? (fun hh => hh.name == a.fromName) = some host ∧
        host.wreq = some reg ∧ a.providedModuleId = none ∧
        (caches reg).find? (fun p => p.2 == a.factoryToken) = none)) :
    (resolveShareLoading caches red a).result = .original ∧
    1 ≤ (resolveShareLoading caches red a).warnings ∧
    (resolveShareLoading caches red a).red = red := by
  unfold resolveShareLoading
  rcases h with h1 | ⟨host, hh, hw⟩ | ⟨host, reg, hh, hw, hpm, hscan⟩
  · simp [h1]
  · simp [hh, hw]
  · cases hidx : subIdxOf a.scope.data "/mfi/scope/".data with
    | none => simp [hh, hw, hidx]
    | some i => simp [hh, hw, hidx, hpm, hscan]

theorem share_failure_contained_witness :
    (resolveShareLoading (fun _ => []) [] c8Args).result = .original ∧
    1 ≤ (resolveShareLoading (fun _ => []) [] c8Args).warnings ∧
    (resolveShareLoading (fun _ => []) [] c8Args).red = [] :=
  share_failure_contained (fun _ => []) [] c8Args (Or.inl (by decide))

/-- C9 counterexample: a first resolution with no precomputed provider id
scans once and writes the redirection for the placeholder; resolving the
same placeholder a second time in sequence scans again, though the table
entry exists. -/
theorem scan_not_memoized_counterexample :
    (resolveShareLoading c9Caches [] c9Args).scans = 1 ∧
    lookupA "csm1" (resolveShareLoading c9Caches [] c9Args).red =
      some ⟨"libroot", some 1⟩ ∧
    (resolveShareLoading c9Caches (resolveShareLoading c9Caches [] c9Args).red c9Args).scans
      = 1 := by
  refine ⟨by decide, by decide, by decide⟩

/-- C9 (amended): the fallback scan runs at most once per resolution, and
never when a precomputed provider id is present; the redirection table is
not consulted to skip it. -/
theorem scan_at_most_once_per_resolution (caches : RegId → List (ModuleId × Nat))
    (red : List (ModuleId × RedEntry)) (a : ShareArgs) :
    (resolveShareLoading caches red a).scans ≤ 1 ∧
    (a.providedModuleId.isSome → (resolveShareLoading caches red a).scans = 0) := by
  unfold resolveShareLoading
  cases hfind : a.instances.find? (fun hh => hh.name == a.fromName) with
  | none => simp [hfind]
  | some host =>
    cases hw : host.wreq with
    | none => simp [hfind, hw]
    | some reg =>
      cases hidx : subIdxOf a.scope.data "/mfi/scope/".data with
      | none => simp [hfind, hw, hidx]
      | some i =>
        cases hpm : a.providedModuleId with
        | some m =>
          simp only [hfind, hw, hidx, hpm]
          constructor
          · split <;> simp
          · intro
            split <;> simp
        | none =>
          simp only [hfind, hw, hidx, hpm]
          constructor
          · cases hscan : (caches reg).find? (fun p => p.2 == a.factoryToken) with
            | none => simp [hscan]
            | some hit =>
              simp only [Option.map]
              split <;> simp
          · intro hcontra
            simp at hcontra

theorem scan_at_most_once_per_resolution_witness :
    (resolveShareLoading c9Caches [] c9bArgs).scans ≤ 1 ∧
    (resolveShareLoading c9Caches [] c9bArgs).scans = 0 :=
  ⟨(scan_at_most_once_per_resolution c9Caches [] c9bArgs).1,
   (scan_at_most_once_per_resolution c9Caches [] c9bArgs).2 (by decide)⟩

end MFI
